import Mathlib

/-!
Shallow embedding of the order-taking and payment-reconciliation engine of
src/main.py (a Telegram bot selling stream-boosting services), together with
proofs settling the frozen claims about it.

Conventions of the embedding:
* money is modelled as rationals (the Python code uses floats; every amount
  the claims touch is a small integer, represented exactly either way);
* the JSON store (users / orders / payments of data.json) is an explicit
  record of association lists, mirroring the keyed dictionaries;
* user identifiers are naturals (Python keys them by str of the id; the
  conversion is injective so the key type does not matter);
* fallible steps return Option; an uncaught Python exception that aborts an
  operation mid-way is modelled by returning the state mutated so far, since
  every mutation of the JSON file before the raise persists;
* datetime values are records ordered lexicographically, as in Python.
-/

namespace StreamBot

/-- A calendar instant, compared lexicographically exactly as Python
datetime objects are.  Instants built from a bare date (the calendar code
writes datetime of year, month, day) have hour = minute = second = 0. -/
structure DateTime where
  year : Nat
  month : Nat
  day : Nat
  hour : Nat
  minute : Nat
  second : Nat
deriving DecidableEq

/-- Strict lexicographic comparison of instants, as Python compares
datetime values. -/
def dt_lt (a b : DateTime) : Bool :=
  if a.year ≠ b.year then decide (a.year < b.year)
  else if a.month ≠ b.month then decide (a.month < b.month)
  else if a.day ≠ b.day then decide (a.day < b.day)
  else if a.hour ≠ b.hour then decide (a.hour < b.hour)
  else if a.minute ≠ b.minute then decide (a.minute < b.minute)
  else decide (a.second < b.second)

/-- ASCII lowercasing of one character, the effect of the Python str.lower
method on the platform names involved. -/
def char_lower (c : Char) : Char :=
  if 65 ≤ c.toNat ∧ c.toNat ≤ 90 then Char.ofNat (c.toNat + 32) else c

/-- Python str.lower, modelled characterwise (the inputs concerned are
ASCII). -/
def str_lower (s : String) : String :=
  ⟨s.data.map char_lower⟩

/-- Python str.split with a one-character separator: empty parts are kept,
the empty string yields one empty part. -/
def split_chars (sep : Char) : List Char → List Char → List (List Char)
  | [], acc => [acc.reverse]
  | c :: cs, acc =>
      if c = sep then acc.reverse :: split_chars sep cs []
      else split_chars sep cs (c :: acc)

/-- Python str.split with a one-character separator, on strings. -/
def split_str (sep : Char) (s : String) : List String :=
  (split_chars sep s.data []).map String.mk

/-- Whitespace in the sense of Python str.strip (the forms that can occur
in a chat message). -/
def is_space (c : Char) : Bool :=
  c = ' ' ∨ c = '\t' ∨ c = '\n' ∨ c = '\r'

/-- Python str.strip: surrounding whitespace removed. -/
def strip_str (s : String) : String :=
  ⟨((s.data.dropWhile is_space).reverse.dropWhile is_space).reverse⟩

/-- One platform price table of get_service_prices: the four fixed service
keys of the pricing dictionaries in src/main.py. -/
structure PriceTable where
  chat_ru : Nat
  chat_eng : Nat
  viewers : Nat
  followers : Nat
deriving DecidableEq

/-- get_service_prices from src/main.py: the three hard-coded tables, looked
up by the lowercased platform name, with the twitch table as the default of
the dictionary get. -/
def get_service_prices (platform : String) : PriceTable :=
  let key := str_lower platform
  if key = "twitch" then ⟨100, 120, 150, 200⟩
  else if key = "youtube" then ⟨90, 110, 140, 180⟩
  else if key = "kick" then ⟨80, 100, 130, 160⟩
  else ⟨100, 120, 150, 200⟩

/-- Dictionary lookup prices[service] inside get_duration: an unknown
service key raises KeyError in Python, modelled as none. -/
def price_of (t : PriceTable) (service : String) : Option ℚ :=
  if service = "chat_ru" then some t.chat_ru
  else if service = "chat_eng" then some t.chat_eng
  else if service = "viewers" then some t.viewers
  else if service = "followers" then some t.followers
  else none

/-- ask_channel from src/main.py stores the service key extracted from the
pressed button as query.data.split(underscore)[1]; index 1 of the split, or
none when the payload has fewer than two parts (IndexError). -/
def ask_channel_service (callbackData : String) : Option String :=
  (split_str '_' callbackData).get? 1

/-- The amount computation of get_duration in src/main.py:
price_per_hour = prices[service]; total_amount = price_per_hour * duration.
none models the KeyError raised on an unknown service key. -/
def get_duration_amount (platform service : String) (duration : Nat) : Option ℚ :=
  (price_of (get_service_prices platform) service).map (fun r => r * duration)

/-- Standard rounding to two decimal places, as the specification words it
(round half up; every amount the code computes is an integer number of
roubles, on which all tie-breaking conventions coincide). -/
def round2 (q : ℚ) : ℚ := ((⌊q * 100 + 1 / 2⌋ : ℤ) : ℚ) / 100

/-- Modelled from the spec: month navigation of the date-picking calendar.
src/main.py has no month-navigation code at all — show_calendar always
renders the current month and offers no previous or next buttons — so the
navigation step is taken from the specification text: moving by delta
months wraps month 0 to December of the previous year and month 13 to
January of the next year. -/
def nav_month (year month delta : Int) : Int × Int :=
  let m := month + delta
  if m ≤ 0 then (year - 1, 12)
  else if 13 ≤ m then (year + 1, 1)
  else (year, m)

/-- An order record as built by confirm_order and stored by create_order in
src/main.py (data.json orders, keyed by order_id; the key is also stored in
the record). -/
structure Order where
  order_id : String
  user_id : Nat
  platform : String
  service : String
  channel : String
  stream_date : String
  start_time : String
  duration : Nat
  amount : ℚ
  status : String
  payment_method : String
  order_date : String
deriving DecidableEq

/-- A payment record as stored by process_crypto_payment and mutated by
check_pending_payments in src/main.py.  The currency and created_at fields
are write-only in the source and omitted. -/
structure Payment where
  invoice_id : String
  user_id : Nat
  amount : ℚ
  status : String
  paid_at : Option String
deriving DecidableEq

/-- The persistent JSON store of src/main.py (data.json): users keyed by id,
orders, payments.  Of a user record only the balance field is ever read or
written by the operations under verification, so a user is modelled by that
field; the admins and system sections are not touched by any claim. -/
structure DB where
  users : List (Nat × ℚ)
  orders : List Order
  payments : List Payment
deriving DecidableEq

/-- Dictionary lookup of a user balance, data.users.get(str(user_id)):
first (and in Python only) binding of the key wins. -/
def lookup_user : List (Nat × ℚ) → Nat → Option ℚ
  | [], _ => none
  | (k, b) :: rest, uid => if k = uid then some b else lookup_user rest uid

/-- update_user of src/main.py, specialised to the call sites the claims
concern, which all pass a single-key dict of the form balance := v: an
existing record keeps its position and gets the new balance; a missing user
is first created (with default fields) and then given balance v, which in a
keyed dictionary appends the binding at the end. -/
def update_user : List (Nat × ℚ) → Nat → ℚ → List (Nat × ℚ)
  | [], uid, v => [(uid, v)]
  | (k, b) :: rest, uid, v =>
      if k = uid then (k, v) :: rest else (k, b) :: update_user rest uid v

/-- create_order of src/main.py: a fresh order id (the uuid, passed here as
a parameter) and the creation timestamp are stamped onto the draft record,
the status is set to pending, and the record is inserted under the new key
(appended, the key being fresh). -/
def create_order (db : DB) (draft : Order) (oid now : String) : DB :=
  { db with orders :=
      db.orders ++ [{ draft with order_id := oid, order_date := now, status := "pending" }] }

/-- update_order of src/main.py, specialised to a status update (the only
field the claim concerns): if the order id is present its record is merged
with the update, otherwise nothing happens — no transition check, no error.
Python keys orders by order_id, so updating every record carrying the id is
exact. -/
def update_order (db : DB) (oid : String) (st : String) : DB :=
  if db.orders.any (fun o => o.order_id = oid) then
    { db with orders :=
        db.orders.map (fun o => if o.order_id = oid then { o with status := st } else o) }
  else db

/-- The draft an order conversation accumulates in context.user_data.
stream_date holds the strftime image of the picked date; start_time is
written by get_time on acceptance. -/
structure Draft where
  platform : String
  service : String
  channel : String
  stream_date : String
  start_time : String
  duration : Nat
  amount : ℚ
deriving DecidableEq

/-- confirm_order of src/main.py: reads the user record, then
unconditionally creates the order (create_order) and then writes
balance := balance - amount through update_user.  No balance check and no
transaction surround the pair.  When the user record is missing, Python
raises on user_data of None only after create_order has already saved the
order, so the order persists and the debit never runs. -/
def confirm_order (db : DB) (uid : Nat) (d : Draft) (oid now : String) : DB :=
  let bal := lookup_user db.users uid
  let db1 := create_order db
    { order_id := "", user_id := uid, platform := d.platform, service := d.service,
      channel := d.channel, stream_date := d.stream_date, start_time := d.start_time,
      duration := d.duration, amount := d.amount, status := "pending",
      payment_method := "balance", order_date := "" } oid now
  match bal with
  | none => db1
  | some b => { db1 with users := update_user db1.users uid (b - d.amount) }

/-- The balance credit performed by check_pending_payments (get_user, add
the invoice amount, update_user with the new balance): none models the
TypeError raised by subscripting None when the user record is missing, in
which case no mutation happens; otherwise the new balance is stored and
reported. -/
def credit_user (db : DB) (uid : Nat) (amount : ℚ) : Option (DB × ℚ) :=
  match lookup_user db.users uid with
  | none => none
  | some b =>
      some ({ db with users := update_user db.users uid (b + amount) }, b + amount)

/-- get_pending_payments of src/main.py: the payments whose status is the
string created. -/
def get_pending_payments (db : DB) : List Payment :=
  db.payments.filter (fun p => p.status = "created")

/-- update_payment of src/main.py, specialised to the reconciler call site:
status becomes paid and paid_at is stamped; a missing invoice id is left
alone.  Python keys payments by invoice_id, so mapping over every record
carrying the id is exact. -/
def update_payment_paid (ps : List Payment) (iid now : String) : List Payment :=
  ps.map (fun p => if p.invoice_id = iid then { p with status := "paid", paid_at := some now } else p)

/-- The loop body of check_pending_payments over the snapshot list of
pending payments.  oracle is the remote gateway status by invoice id
(check_crypto_payment); none models a failed remote call, whose exception
aborts the whole cycle (the surrounding try), keeping every mutation made
so far.  For a remotely paid invoice the local record is first marked paid
(persisted), then the balance credit runs; a missing user aborts the cycle
after the mark, exactly as the TypeError does in Python. -/
def process_payments (oracle : String → Option String) (now : String) :
    List Payment → DB → DB
  | [], db => db
  | p :: rest, db =>
    match oracle p.invoice_id with
    | none => db
    | some st =>
      if st = "paid" then
        let dbp : DB := { db with payments := update_payment_paid db.payments p.invoice_id now }
        match credit_user dbp p.user_id p.amount with
        | none => dbp
        | some (db2, _) => process_payments oracle now rest db2
      else process_payments oracle now rest db

/-- One reconciliation cycle, check_pending_payments of src/main.py: take
the snapshot of locally created payments, then process them in order. -/
def check_pending_payments (oracle : String → Option String) (now : String) (db : DB) : DB :=
  process_payments oracle now (get_pending_payments db) db

/-- Conversation steps of the order ConversationHandler that the verified
handlers return. -/
inductive Step
  | GET_CHANNEL
  | GET_DATE
  | GET_TIME
  | GET_DURATION
  | CONFIRM_ORDER
deriving DecidableEq

/-- Python int applied to one piece of the split time string: surrounding
whitespace is ignored, an optional sign is allowed, and the rest must be a
nonempty run of decimal digits (exotic literal forms such as digit-group
underscores or non-ASCII digits are not modelled).  none models the
ValueError. -/
def digits_val (l : List Char) : Option Nat :=
  if l ≠ [] ∧ l.all Char.isDigit then
    some (l.foldl (fun acc c => acc * 10 + (c.toNat - 48)) 0)
  else none

def parse_int (s : String) : Option Int :=
  match (strip_str s).data with
  | [] => none
  | c :: cs =>
      if c = '-' then (digits_val cs).map (fun n => -(n : Int))
      else if c = '+' then (digits_val cs).map (fun n => (n : Int))
      else (digits_val (c :: cs)).map (fun n => (n : Int))

/-- The parse step of get_time: split the input on the colon and unpack the
int images of exactly two parts; anything else raises ValueError (too many
or too few parts to unpack, or a part int cannot parse), modelled as
none. -/
def parse_clock (s : String) : Option (Int × Int) :=
  match split_str ':' s with
  | [h, m] =>
    match parse_int h, parse_int m with
    | some a, some b => some (a, b)
    | _, _ => none
  | _ => none

/-- get_time of src/main.py on the GET_TIME step.  Arguments: the current
instant, the draft, the parsed form of the stored stream_date string (the
strptime the handler performs; the calendar step always stores a
well-formed date), and the raw message text.  The text is stripped, parsed
as hour colon minute, range-checked, and the combined instant is compared
with now; a failure of any stage re-enters GET_TIME with the draft
untouched, and success stores the stripped time string and moves to
GET_DURATION. -/
def get_time (now : DateTime) (d : Draft) (sd : Nat × Nat × Nat) (text : String) :
    Draft × Step :=
  let s := strip_str text
  match parse_clock s with
  | none => (d, Step.GET_TIME)
  | some (h, m) =>
    if 0 ≤ h ∧ h < 24 ∧ 0 ≤ m ∧ m < 60 then
      let sdt : DateTime := ⟨sd.1, sd.2.1, sd.2.2, h.toNat, m.toNat, 0⟩
      if dt_lt sdt now then (d, Step.GET_TIME)
      else ({ d with start_time := s }, Step.GET_DURATION)
    else (d, Step.GET_TIME)

/-- The per-cell decision of the month grid in show_calendar of src/main.py:
a cell is a selectable day button exactly when the cell is a real day of the
month (monthcalendar pads with 0) and datetime(year, month, day) — midnight
of that day — is not before datetime.now(); otherwise the cell is rendered
as an inert blank button. -/
def show_calendar_selectable (year month day : Nat) (now : DateTime) : Bool :=
  if day = 0 then false
  else if dt_lt ⟨year, month, day, 0, 0, 0⟩ now then false
  else true

/-- Updating the balance of key w rewrites exactly the binding of w and
leaves every other lookup unchanged. -/
lemma lookup_update (us : List (Nat × ℚ)) (w : Nat) (x : ℚ) (uid : Nat) :
    lookup_user (update_user us w x) uid = if w = uid then some x else lookup_user us uid := by
  induction us with
  | nil =>
    by_cases h : w = uid <;> simp [update_user, lookup_user, h]
  | cons kv rest ih =>
    obtain ⟨k, b⟩ := kv
    by_cases hkw : k = w
    · subst hkw
      by_cases hku : k = uid <;> simp [update_user, lookup_user, hku]
    · by_cases hku : k = uid
      · subst hku
        have hwk : ¬ w = k := fun hh => hkw hh.symm
        simp [update_user, lookup_user, hkw, hwk]
      · simp [update_user, lookup_user, hkw, hku, ih]

/-- C6: month navigation in the date picker wraps year boundaries —
stepping backward from month 1 lands on month 12 of the previous year and
stepping forward from month 12 lands on month 1 of the next year
(nav_month is modelled from the spec, the navigation being absent from
src/main.py). -/
theorem nav_month_wraps (y : Int) :
    nav_month y 1 (-1) = (y - 1, 12) ∧ nav_month y 12 1 = (y + 1, 1) := by
  constructor <;> simp [nav_month]

/-- C10: for any platform string whose lowercase form is none of twitch,
youtube, kick, get_service_prices falls back to the twitch table with
rates 100, 120, 150, 200 instead of failing or returning an empty table. -/
theorem get_service_prices_unknown_platform (p : String)
    (h1 : str_lower p ≠ "twitch") (h2 : str_lower p ≠ "youtube") (h3 : str_lower p ≠ "kick") :
    get_service_prices p = ⟨100, 120, 150, 200⟩ := by
  simp [get_service_prices, h1, h2, h3]

/-- Witness for C10 at the concrete platform Trovo. -/
theorem get_service_prices_unknown_platform_witness :
    get_service_prices "Trovo" = ⟨100, 120, 150, 200⟩ :=
  get_service_prices_unknown_platform "Trovo" (by decide) (by decide) (by decide)

/-- C8, evaluation at the failing input: pressing the chat_ru service
button (callback payload service_chat_ru) makes ask_channel store the
service key chat, on which the price lookup of get_duration has no entry —
the KeyError aborts the step and no amount is ever computed, while the
claim promises 200.00 for twitch chat_ru over 2 hours.  On a service key
that survives the extraction (viewers), the amount does equal the rounded
rate-times-hours product. -/
theorem ask_channel_chat_key_crash :
    ask_channel_service "service_chat_ru" = some "chat" ∧
    get_duration_amount "twitch" "chat" 2 = none ∧
    round2 (100 * 2) = 200 ∧
    get_duration_amount "twitch" "viewers" 2 = some (round2 (150 * 2)) := by
  refine ⟨by decide, by decide, ?_, ?_⟩
  · show ((⌊(100 * 2 : ℚ) * 100 + 1 / 2⌋ : ℤ) : ℚ) / 100 = 200
    norm_num
  · show some ((150 : ℚ) * 2) = some (round2 (150 * 2))
    unfold round2
    norm_num

/-- C5, evaluation at the failing input: with the current instant
2026-10-12 14:30, the date-picking grid of show_calendar renders day 12 —
today, not a day strictly before the current date — as non-selectable,
because it compares the midnight instant of the day with datetime.now().
Yesterday (11) is also non-selectable and tomorrow (13) is selectable. -/
theorem show_calendar_today_not_selectable :
    show_calendar_selectable 2026 10 12 ⟨2026, 10, 12, 14, 30, 0⟩ = false ∧
    dt_lt ⟨2026, 10, 12, 0, 0, 0⟩ ⟨2026, 10, 12, 0, 0, 0⟩ = false ∧
    show_calendar_selectable 2026 10 11 ⟨2026, 10, 12, 14, 30, 0⟩ = false ∧
    show_calendar_selectable 2026 10 13 ⟨2026, 10, 12, 14, 30, 0⟩ = true := by
  decide

/-- C1, evaluation at the failing input: user 7 holds balance 200 and
confirms a draft of amount 300; confirm_order performs no balance
comparison and no transaction, so the order is created anyway and the
balance is debited to -100 — the claim requires that no order be created
and the balance stay untouched when the amount exceeds the balance. -/
theorem confirm_order_overdraft :
    ((confirm_order ⟨[(7, 200)], [], []⟩ 7
        ⟨"twitch", "viewers", "chan", "2026-10-20", "18:30", 2, 300⟩ "oid-1" "ts").orders.map
          (fun o => o.status)) = ["pending"] ∧
    lookup_user ((confirm_order ⟨[(7, 200)], [], []⟩ 7
        ⟨"twitch", "viewers", "chan", "2026-10-20", "18:30", 2, 300⟩ "oid-1" "ts").users) 7 =
      some (-100) := by
  constructor
  · rfl
  · show some ((200 : ℚ) - 300) = some (-100)
    norm_num

/-- C2, evaluation at the failing input: the committed debit of
confirm_order drives the stored balance of user 5 from 150 to -50, a
negative committed balance, violating the non-negativity invariant. -/
theorem confirm_order_negative_balance :
    lookup_user ((confirm_order ⟨[(5, 150)], [], []⟩ 5
        ⟨"twitch", "viewers", "chan", "2026-10-20", "18:30", 2, 200⟩ "oid-2" "ts").users) 5 =
      some (-50) ∧ ((-50 : ℚ) < 0) := by
  constructor
  · show some ((150 : ℚ) - 200) = some (-50)
    norm_num
  · norm_num

/-- Counterexample to C7 as stated: on a store holding one completed order
o1, update_order applied with the new status pending succeeds silently —
the terminal order is transitioned backwards instead of the operation
failing with InvalidTransition and leaving the order unchanged. -/
theorem update_order_terminal_cex :
    ((update_order
        ⟨[], [⟨"o1", 7, "twitch", "viewers", "chan", "2026-10-20", "18:30", 2, 300,
            "completed", "balance", "od"⟩], []⟩ "o1" "pending").orders.map
          (fun o => o.status)) = ["pending"] ∧ ("pending" : String) ≠ "completed" := by
  constructor
  · rfl
  · decide

/-- C7 as amended: update_order enforces no transition discipline at all —
on an existing order the requested status is applied unconditionally,
terminal statuses included, and no error is ever produced; on an unknown
order id the store is silently left unchanged. -/
theorem update_order_unrestricted (db : DB) (oid st : String) :
    ((∀ o ∈ db.orders, o.order_id ≠ oid) → update_order db oid st = db) ∧
    (∀ o ∈ (update_order db oid st).orders, o.order_id = oid → o.status = st) := by
  constructor
  · intro h
    have hany : (db.orders.any fun o => decide (o.order_id = oid)) = false := by
      simp only [List.any_eq_false, decide_eq_true_eq]
      exact h
    simp [update_order, hany]
  · intro o ho hid
    by_cases hany : (db.orders.any fun o => decide (o.order_id = oid)) = true
    · rw [update_order, if_pos hany] at ho
      simp only [List.mem_map] at ho
      obtain ⟨o0, _, hmap⟩ := ho
      by_cases h0 : o0.order_id = oid
      · rw [if_pos h0] at hmap
        rw [hmap.symm]
      · rw [if_neg h0] at hmap
        exact absurd (hmap ▸ hid) h0
    · rw [update_order, if_neg hany] at ho
      rw [List.any_eq_true] at hany
      push_neg at hany
      exact absurd (by simpa using hany o ho) (by simp [hid])

/-- Witness for C7 applying the amended theorem: updating a status on an
empty order store changes nothing. -/
theorem update_order_unrestricted_witness :
    update_order ⟨[], [], []⟩ "ox" "cancelled" = (⟨[], [], []⟩ : DB) :=
  (update_order_unrestricted ⟨[], [], []⟩ "ox" "cancelled").1 (by simp)

/-- C9: the balance credit as performed by the reconciler — for an existing
user the stored balance is incremented by exactly the amount, the new
balance is reported back, and no other user changes; for an unknown user
the operation fails and nothing is mutated. -/
theorem credit_user_spec (db : DB) (uid : Nat) (amount : ℚ) :
    (lookup_user db.users uid = none → credit_user db uid amount = none) ∧
    (∀ b, lookup_user db.users uid = some b →
      credit_user db uid amount =
        some ({ db with users := update_user db.users uid (b + amount) }, b + amount) ∧
      lookup_user (update_user db.users uid (b + amount)) uid = some (b + amount) ∧
      ∀ w, w ≠ uid → lookup_user (update_user db.users uid (b + amount)) w =
        lookup_user db.users w) := by
  constructor
  · intro h
    simp [credit_user, h]
  · intro b hb
    refine ⟨by simp [credit_user, hb], ?_, ?_⟩
    · rw [lookup_update, if_pos rfl]
    · intro w hw
      rw [lookup_update, if_neg (fun hh => hw hh.symm)]

/-- Witness for C9 on a store holding one user 3 with balance 10: crediting
5 to user 3 succeeds reporting 15, crediting user 4 fails. -/
theorem credit_user_spec_witness :
    credit_user ⟨[(3, 10)], [], []⟩ 3 5 = some (⟨[(3, 15)], [], []⟩, 15) ∧
    credit_user ⟨[(3, 10)], [], []⟩ 4 5 = none := by
  constructor
  · have h := ((credit_user_spec ⟨[(3, 10)], [], []⟩ 3 5).2 10 rfl).1
    rw [h]
    norm_num [update_user]
  · exact (credit_user_spec ⟨[(3, 10)], [], []⟩ 4 5).1 rfl

/-- C4: a time input is admitted to the duration step exactly when the
stripped text parses as hour colon minute with 0 ≤ hour < 24 and
0 ≤ minute < 60 and the instant made of the picked date and that time is
not strictly before now; every rejected input re-enters the time step with
the draft untouched, and an accepted input only records the stripped time
string. -/
theorem get_time_spec (now : DateTime) (d : Draft) (sd : Nat × Nat × Nat) (text : String) :
    ((get_time now d sd text).2 = Step.GET_DURATION ↔
      ∃ h m, parse_clock (strip_str text) = some (h, m) ∧
        0 ≤ h ∧ h < 24 ∧ 0 ≤ m ∧ m < 60 ∧
        dt_lt ⟨sd.1, sd.2.1, sd.2.2, h.toNat, m.toNat, 0⟩ now = false) ∧
    ((get_time now d sd text).2 = Step.GET_TIME → (get_time now d sd text).1 = d) ∧
    ((get_time now d sd text).2 = Step.GET_DURATION →
      (get_time now d sd text).1 = { d with start_time := strip_str text }) := by
  cases hpc : parse_clock (strip_str text) with
  | none =>
    have hstep : get_time now d sd text = (d, Step.GET_TIME) := by
      simp [get_time, hpc]
    rw [hstep]
    refine ⟨?_, fun _ => rfl, fun hh => absurd hh (by simp)⟩
    simp [hpc]
  | some hm =>
    obtain ⟨h, m⟩ := hm
    by_cases hr : 0 ≤ h ∧ h < 24 ∧ 0 ≤ m ∧ m < 60
    · cases hlt : dt_lt ⟨sd.1, sd.2.1, sd.2.2, h.toNat, m.toNat, 0⟩ now with
      | true =>
        have hstep : get_time now d sd text = (d, Step.GET_TIME) := by
          simp [get_time, hpc, hr, hlt]
        rw [hstep]
        refine ⟨?_, fun _ => rfl, fun hh => absurd hh (by simp)⟩
        constructor
        · intro hh; exact absurd hh (by simp)
        · rintro ⟨h2, m2, hpc2, _, _, _, _, he⟩
          have hz := Option.some.inj hpc2
          have hz1 : h = h2 := congrArg Prod.fst hz
          have hz2 : m = m2 := congrArg Prod.snd hz
          subst hz1
          subst hz2
          simp [hlt] at he
      | false =>
        have hstep : get_time now d sd text =
            ({ d with start_time := strip_str text }, Step.GET_DURATION) := by
          simp [get_time, hpc, hr, hlt]
        rw [hstep]
        refine ⟨?_, fun hh => absurd hh (by simp), fun _ => rfl⟩
        constructor
        · intro _
          exact ⟨h, m, rfl, hr.1, hr.2.1, hr.2.2.1, hr.2.2.2, hlt⟩
        · intro _; rfl
    · have hstep : get_time now d sd text = (d, Step.GET_TIME) := by
        simp [get_time, hpc, hr]
      rw [hstep]
      refine ⟨?_, fun _ => rfl, fun hh => absurd hh (by simp)⟩
      constructor
      · intro hh; exact absurd hh (by simp)
      · rintro ⟨h2, m2, hpc2, ha, hb, hc, hd, _⟩
        have hz := Option.some.inj hpc2
        have hz1 : h = h2 := congrArg Prod.fst hz
        have hz2 : m = m2 := congrArg Prod.snd hz
        subst hz1
        subst hz2
        exact absurd ⟨ha, hb, hc, hd⟩ hr

/-- Witness for C4: with now = 2026-10-12 14:30 and the picked date
2026-10-12, the out-of-range input 25:00 is rejected leaving the draft
unchanged, and 18:30 is accepted. -/
theorem get_time_spec_witness :
    (get_time ⟨2026, 10, 12, 14, 30, 0⟩ ⟨"twitch", "viewers", "ch", "2026-10-12", "", 0, 0⟩
        (2026, 10, 12) "25:00").1 = ⟨"twitch", "viewers", "ch", "2026-10-12", "", 0, 0⟩ ∧
    (get_time ⟨2026, 10, 12, 14, 30, 0⟩ ⟨"twitch", "viewers", "ch", "2026-10-12", "", 0, 0⟩
        (2026, 10, 12) "18:30").2 = Step.GET_DURATION := by
  constructor
  · exact (get_time_spec ⟨2026, 10, 12, 14, 30, 0⟩
      ⟨"twitch", "viewers", "ch", "2026-10-12", "", 0, 0⟩ (2026, 10, 12) "25:00").2.1 (by decide)
  · exact ((get_time_spec ⟨2026, 10, 12, 14, 30, 0⟩
      ⟨"twitch", "viewers", "ch", "2026-10-12", "", 0, 0⟩ (2026, 10, 12) "18:30").1).mpr
      ⟨18, 30, by decide, by decide, by decide, by decide, by decide, by decide⟩

/-- A cycle over a snapshot in which no payment checks out as remotely paid
leaves the store untouched (also when a remote check fails, since the abort
happens before any mutation of that iteration). -/
lemma process_payments_no_paid (oracle : String → Option String) (now : String) :
    ∀ (l : List Payment) (db : DB),
      (∀ p ∈ l, oracle p.invoice_id ≠ some "paid") →
      process_payments oracle now l db = db := by
  intro l
  induction l with
  | nil => intro db _; rfl
  | cons p rest ih =>
    intro db hl
    have hp := hl p (List.mem_cons_self p rest)
    cases ho : oracle p.invoice_id with
    | none => simp [process_payments, ho]
    | some st =>
      have hst : ¬ st = "paid" := by
        intro hh
        exact hp (hh ▸ ho)
      simp only [process_payments, ho, hst, if_false]
      exact ih db (fun q hq => hl q (List.mem_cons_of_mem p hq))

/-- After a cycle that runs to completion — every snapshot payment gets a
remote answer and every credited user exists — no payment that the gateway
reports paid is still locally created: the cycle settles everything it can
see.  The third hypothesis says the snapshot list covers every locally
created payment that the gateway reports paid. -/
lemma process_payments_settles (oracle : String → Option String) (now : String) :
    ∀ (l : List Payment) (db : DB),
      (∀ p ∈ l, oracle p.invoice_id ≠ none) →
      (∀ p ∈ l, oracle p.invoice_id = some "paid" →
          (lookup_user db.users p.user_id).isSome) →
      (∀ q ∈ db.payments, q.status = "created" → oracle q.invoice_id = some "paid" →
          q.invoice_id ∈ l.map Payment.invoice_id) →
      ∀ q ∈ (process_payments oracle now l db).payments,
        q.status = "created" → oracle q.invoice_id ≠ some "paid" := by
  intro l
  induction l with
  | nil =>
    intro db _ _ hcov q hq hcr hpaid
    have := hcov q hq hcr hpaid
    simp at this
  | cons p rest ih =>
    intro db h1 h2 hcov
    cases ho : oracle p.invoice_id with
    | none => exact absurd ho (h1 p (List.mem_cons_self p rest))
    | some st =>
      by_cases hst : st = "paid"
      · subst hst
        have hsome : (lookup_user db.users p.user_id).isSome :=
          h2 p (List.mem_cons_self p rest) ho
        obtain ⟨b, hb⟩ := Option.isSome_iff_exists.mp hsome
        have hred : process_payments oracle now (p :: rest) db =
            process_payments oracle now rest
              { users := update_user db.users p.user_id (b + p.amount),
                orders := db.orders,
                payments := update_payment_paid db.payments p.invoice_id now } := by
          simp [process_payments, ho, credit_user, hb]
        rw [hred]
        apply ih
        · exact fun q hq => h1 q (List.mem_cons_of_mem p hq)
        · intro q hq hqo
          have hq2 := h2 q (List.mem_cons_of_mem p hq) hqo
          rw [lookup_update]
          by_cases hw : p.user_id = q.user_id
          · rw [if_pos hw]; rfl
          · rw [if_neg hw]; exact hq2
        · intro q hq hcr hqo
          simp only [update_payment_paid, List.mem_map] at hq
          obtain ⟨q0, hq0, hq0eq⟩ := hq
          by_cases hid : q0.invoice_id = p.invoice_id
          · rw [if_pos hid] at hq0eq
            rw [hq0eq.symm] at hcr
            simp at hcr
          · rw [if_neg hid] at hq0eq
            rw [hq0eq.symm] at hcr hqo ⊢
            have hmem := hcov q0 hq0 hcr hqo
            simp only [List.map_cons, List.mem_cons] at hmem
            rcases hmem with hcase | hcase
            · exact absurd hcase hid
            · exact hcase
      · have hred : process_payments oracle now (p :: rest) db =
            process_payments oracle now rest db := by
          simp only [process_payments, ho, hst, if_false]
        rw [hred]
        apply ih
        · exact fun q hq => h1 q (List.mem_cons_of_mem p hq)
        · exact fun q hq => h2 q (List.mem_cons_of_mem p hq)
        · intro q hq hcr hqo
          have hmem := hcov q hq hcr hqo
          simp only [List.map_cons, List.mem_cons] at hmem
          rcases hmem with hcase | hcase
          · exfalso
            rw [hcase, ho] at hqo
            exact hst (Option.some.inj hqo)
          · exact hcase

/-- C3: reconciliation is idempotent.  Provided one cycle runs to
completion — the gateway answers for every locally created payment and
every user owed a credit exists — a second cycle over the resulting store
changes nothing: every invoice the first cycle credited is now locally
paid, is no longer fetched by get_pending_payments, and produces no second
credit; invoices the gateway still reports unpaid are merely re-checked. -/
theorem check_pending_payments_idempotent (oracle : String → Option String)
    (now1 now2 : String) (db : DB)
    (hOracle : ∀ p ∈ db.payments, p.status = "created" → oracle p.invoice_id ≠ none)
    (hUsers : ∀ p ∈ db.payments, p.status = "created" →
        oracle p.invoice_id = some "paid" → (lookup_user db.users p.user_id).isSome) :
    check_pending_payments oracle now2 (check_pending_payments oracle now1 db) =
      check_pending_payments oracle now1 db := by
  have hsettle := process_payments_settles oracle now1 (get_pending_payments db) db
    (by
      intro p hp
      rw [get_pending_payments, List.mem_filter] at hp
      exact hOracle p hp.1 (by simpa using hp.2))
    (by
      intro p hp
      rw [get_pending_payments, List.mem_filter] at hp
      exact hUsers p hp.1 (by simpa using hp.2))
    (by
      intro q hq hcr _
      apply List.mem_map_of_mem
      rw [get_pending_payments, List.mem_filter]
      exact ⟨hq, by simp [hcr]⟩)
  rw [check_pending_payments, check_pending_payments]
  apply process_payments_no_paid
  intro p hp
  rw [get_pending_payments, List.mem_filter] at hp
  exact hsettle p hp.1 (by simpa using hp.2)

/-- Witness for C3: the spec example — one invoice INV-1 of 1000 for user 1,
locally created, remotely paid.  The first cycle marks it paid and credits
1000; the second cycle leaves the whole store, balances included,
unchanged. -/
theorem check_pending_payments_idempotent_witness :
    check_pending_payments (fun iid => if iid = "INV-1" then some "paid" else none) "t2"
        (check_pending_payments (fun iid => if iid = "INV-1" then some "paid" else none) "t1"
          ⟨[(1, 0)], [], [⟨"INV-1", 1, 1000, "created", none⟩]⟩) =
      check_pending_payments (fun iid => if iid = "INV-1" then some "paid" else none) "t1"
        ⟨[(1, 0)], [], [⟨"INV-1", 1, 1000, "created", none⟩]⟩ :=
  check_pending_payments_idempotent (fun iid => if iid = "INV-1" then some "paid" else none)
    "t1" "t2" ⟨[(1, 0)], [], [⟨"INV-1", 1, 1000, "created", none⟩]⟩
    (by decide) (by decide)

end StreamBot
